import Mathlib

/-!
Verification of the BrainPy control-flow layer and custom-operator
registration glue, as documented in the repository's tutorial notebooks
(`Control Flows`, `operator_custom_with_cupy`) and README.

The notebooks document three wrapper primitives, `make_loop`, `make_while`
and `make_cond`, that lower Python-level control flow onto the external
compiler's structured-control-flow primitives (`lax.scan`, `lax.while_loop`,
`lax.cond`), threading a collection of mutable tracked variables
(`dyn_vars`) through the call, and an `XLACustomOp` wrapper that registers
externally-authored GPU kernels in the compiler's dispatch table.

All of the notebooks' float32 arrays hold exact small integers, so array
elements are modelled as integers (`Int`) and an array as a `List Int`;
mutable tracked state is modelled by explicit state passing: a wrapper that
updates `dyn_vars` in place becomes a function from the state before the
call to the state after it.
-/

namespace BrainPy

/-- Modelled from the spec: the external compiler's structured scan
primitive (`lax.scan`).  It threads a carry through the input sequence and
collects one emitted value per step.  The wrappers delegate all looping to
it. -/
def lax_scan {σ ι ρ : Type} (f : σ → ι → σ × ρ) : σ → List ι → σ × List ρ
  | s, [] => (s, [])
  | s, x :: xs =>
    let p := f s x
    let q := lax_scan f p.1 xs
    (q.1, p.2 :: q.2)

/-- Modelled from the spec: `make_loop(body_fun, dyn_vars, out_vars)` builds
a for-loop callable over the tracked state.  `body` updates the tracked
state and may return a value; `outFn` reads the `out_vars` part of the
updated state.  The callable runs the external scan primitive and for each
step records the `out_vars` value after that step together with the body's
return value. -/
def make_loop {σ ι ω ρ : Type} (body : σ → ι → σ × ρ) (outFn : σ → ω)
    (s : σ) (xs : List ι) : σ × List (ω × ρ) :=
  lax_scan (fun s x => let p := body s x; (p.1, (outFn p.1, p.2))) s xs

/-- Modelled from the spec: the reference Python semantics the notebook
gives for the for-loop wrapper:

  def for_loop_function(body_fun, dyn_vars, out_vars, xs):
    ys = []
    for x in xs:
      results = body_fun(x)
      ys.append([out_vars, results])
    return ys
-/
def for_loop_function {σ ι ω ρ : Type} (body : σ → ι → σ × ρ) (outFn : σ → ω) :
    σ → List ι → σ × List (ω × ρ)
  | s, [] => (s, [])
  | s, x :: xs =>
    let p := body s x
    let q := for_loop_function body outFn p.1 xs
    (q.1, (outFn p.1, p.2) :: q.2)

/-- Modelled from the spec: `make_while(cond_fun, body_fun, dyn_vars)`
builds a while-loop callable over the tracked state: it repeatedly runs
`body` while `cond` holds and stops as soon as `cond` is false.  The
external compiler's while primitive has no fuel; here a fuel argument makes
the recursion total, with `none` meaning the loop was still running when
the fuel ran out. -/
def make_while {σ : Type} (cond : σ → Bool) (body : σ → σ) : Nat → σ → Option σ
  | 0, s => if cond s then none else some s
  | n + 1, s => if cond s then make_while cond body n (body s) else some s

/-- Modelled from the spec: `make_cond(true_fun, false_fun, dyn_vars)`
builds a conditional callable over the tracked state: `cond(pred)` runs
exactly one of the two branch functions on the tracked state. -/
def make_cond {σ : Type} (true_fun false_fun : σ → σ) (pred : Bool) (s : σ) : σ :=
  if pred then true_fun s else false_fun s

/-- The tracked-state fold performed by the loop body alone (the sequence
of in-place updates of `dyn_vars`, without the history bookkeeping). -/
def loop_state {σ ι ρ : Type} (body : σ → ι → σ × ρ) (s : σ) (xs : List ι) : σ :=
  List.foldl (fun s x => (body s x).1) s xs

theorem lax_scan_nil {σ ι ρ : Type} (f : σ → ι → σ × ρ) (s : σ) :
    lax_scan f s [] = (s, []) := rfl

theorem lax_scan_cons {σ ι ρ : Type} (f : σ → ι → σ × ρ) (s : σ) (x : ι) (xs : List ι) :
    lax_scan f s (x :: xs) =
      ((lax_scan f (f s x).1 xs).1, (f s x).2 :: (lax_scan f (f s x).1 xs).2) := rfl

theorem make_loop_eq_reference {σ ι ω ρ : Type} (body : σ → ι → σ × ρ) (outFn : σ → ω)
    (s : σ) (xs : List ι) :
    make_loop body outFn s xs = for_loop_function body outFn s xs := by
  induction xs generalizing s with
  | nil => rfl
  | cons x xs ih =>
    simp only [make_loop, for_loop_function] at *
    rw [lax_scan_cons]
    simp only [ih]

theorem make_loop_length {σ ι ω ρ : Type} (body : σ → ι → σ × ρ) (outFn : σ → ω)
    (s : σ) (xs : List ι) :
    (make_loop body outFn s xs).2.length = xs.length := by
  induction xs generalizing s with
  | nil => rfl
  | cons x xs ih =>
    simp only [make_loop] at *
    rw [lax_scan_cons]
    simp [ih]

theorem make_loop_fst {σ ι ω ρ : Type} (body : σ → ι → σ × ρ) (outFn : σ → ω)
    (s : σ) (xs : List ι) :
    (make_loop body outFn s xs).1 = loop_state body s xs := by
  induction xs generalizing s with
  | nil => rfl
  | cons x xs ih =>
    simp only [make_loop, loop_state] at *
    rw [lax_scan_cons]
    simp [ih]

theorem make_loop_row {σ ι ω ρ : Type} (body : σ → ι → σ × ρ) (outFn : σ → ω)
    (s : σ) (xs : List ι) (k : Nat) (h : k < xs.length) :
    ((make_loop body outFn s xs).2.map Prod.fst)[k]? =
      some (outFn (loop_state body s (xs.take (k + 1)))) := by
  induction xs generalizing s k with
  | nil => simp at h
  | cons x xs ih =>
    rcases k with _ | k
    · simp only [make_loop, loop_state]
      rw [lax_scan_cons]
      simp [List.foldl]
    · have hk : k < xs.length := by simpa using Nat.lt_of_succ_lt_succ h
      simp only [make_loop, loop_state]
      rw [lax_scan_cons]
      simpa [List.foldl, make_loop, loop_state] using ih (body s x).1 k hk

theorem make_while_stops_on_false {σ : Type} (cond : σ → Bool) (body : σ → σ) :
    ∀ (n : Nat) (s s2 : σ), make_while cond body n s = some s2 → cond s2 = false := by
  intro n
  induction n with
  | zero =>
    intro s s2 h
    by_cases hc : cond s = true
    · simp [make_while, hc] at h
    · simp only [Bool.not_eq_true] at hc
      simp [make_while, hc] at h
      simpa [h.symm] using hc
  | succ n ih =>
    intro s s2 h
    by_cases hc : cond s = true
    · rw [make_while, if_pos hc] at h
      exact ih (body s) s2 h
    · simp only [Bool.not_eq_true] at hc
      rw [make_while, if_neg (by simp [hc])] at h
      cases h
      exact hc

theorem make_while_step {σ : Type} (cond : σ → Bool) (body : σ → σ) (n : Nat) (s : σ)
    (h : cond s = true) :
    make_while cond body (n + 1) s = make_while cond body n (body s) := by
  rw [make_while, if_pos h]

theorem make_while_done {σ : Type} (cond : σ → Bool) (body : σ → σ) (n : Nat) (s : σ)
    (h : cond s = false) :
    make_while cond body n s = some s := by
  cases n <;> rw [make_while, if_neg (by simp [h])]

/-! ### Concrete notebook examples

The notebook exercises the three wrappers on small float32 arrays whose
entries are exact small integers; they are transcribed here over `Int`. -/

/-- The notebook's for-loop input `xs=[bm.arange(10), bm.ones(10)]`,
iterated pairwise: the k-th input is the pair (k, 1). -/
def loop_example_xs : List (Int × Int) :=
  (List.range 10).map (fun k => ((k : Int), 1))

/-- The notebook's for-loop body `a.value += (x1 + x2)` over the tracked
array `a` (the body returns nothing). -/
def loop_example_body (a : List Int) (x : Int × Int) : List Int × Unit :=
  (a.map (fun v => v + x.1 + x.2), ())

/-- The history of `out_vars=a` produced by the notebook's loop example. -/
def loop_example_hist : List (List Int) :=
  ((make_loop loop_example_body id (List.replicate 10 0) loop_example_xs).2).map Prod.fst

/-- The history the notebook displays: rows of constant value
1, 3, 6, 10, 15, 21, 28, 36, 45, 55. -/
def loop_example_expected : List (List Int) :=
  [1, 3, 6, 10, 15, 21, 28, 36, 45, 55].map (fun v => List.replicate 10 v)

/-- The notebook's while example condition `i[0] < 10`, over the tracked
state (i, counter). -/
def while_cond (s : List Int × List Int) : Bool :=
  decide (s.1.headD 0 < 10)

/-- The notebook's while example body `i += 1; counter += i` (with `i`
already incremented when added to `counter`). -/
def while_body (s : List Int × List Int) : List Int × List Int :=
  let i2 := s.1.map (fun v => v + 1)
  (i2, List.zipWith (fun a b => a + b) s.2 i2)

/-- The notebook's conditional example true branch `a.value += 1`, over the
tracked state (a, b). -/
def cond_true_fun (s : List Int × List Int) : List Int × List Int :=
  (s.1.map (fun v => v + 1), s.2)

/-- The notebook's conditional example false branch `b.value -= 1`. -/
def cond_false_fun (s : List Int × List Int) : List Int × List Int :=
  (s.1, s.2.map (fun v => v - 1))

/-- Claim C1: the control-flow layer provides exactly the three wrapper
primitives `make_loop`, `make_while` and `make_cond`; each takes user
body/condition functions over the tracked `dyn_vars` state and returns a
callable executing the corresponding structured construct over that state:
the loop callable realizes the notebook's reference Python for-loop
semantics, the while callable steps through `body` exactly while `cond`
holds and stops when it is false, and the conditional callable dispatches
to the selected branch. -/
theorem control_flow_layer :
    (∀ (σ ι ω ρ : Type) (body : σ → ι → σ × ρ) (outFn : σ → ω) (s : σ) (xs : List ι),
        make_loop body outFn s xs = for_loop_function body outFn s xs) ∧
    (∀ (σ : Type) (cond : σ → Bool) (body : σ → σ) (n : Nat) (s : σ),
        cond s = true → make_while cond body (n + 1) s = make_while cond body n (body s)) ∧
    (∀ (σ : Type) (cond : σ → Bool) (body : σ → σ) (n : Nat) (s : σ),
        cond s = false → make_while cond body n s = some s) ∧
    (∀ (σ : Type) (tf ff : σ → σ) (s : σ),
        make_cond tf ff true s = tf s ∧ make_cond tf ff false s = ff s) := by
  refine ⟨?_, ?_, ?_, ?_⟩
  · intro σ ι ω ρ body outFn s xs
    exact make_loop_eq_reference body outFn s xs
  · intro σ cond body n s h
    exact make_while_step cond body n s h
  · intro σ cond body n s h
    exact make_while_done cond body n s h
  · intro σ tf ff s
    exact ⟨rfl, rfl⟩

/-- Witness for C1 at the notebook's concrete while state: the step and
stop equations hold at (i, counter) = ([0], [0]) and ([10], [55]). -/
theorem control_flow_layer_witness :
    make_while while_cond while_body 11 ([0], [0]) =
      make_while while_cond while_body 10 (while_body ([0], [0])) ∧
    make_while while_cond while_body 11 ([10], [55]) = some ([10], [55]) := by
  refine ⟨?_, ?_⟩
  · exact control_flow_layer.2.1 _ while_cond while_body 10 ([0], [0]) (by decide)
  · exact control_flow_layer.2.2.1 _ while_cond while_body 11 ([10], [55]) (by decide)

/-- Claim C3: for a loop built by `make_loop(body_fun, dyn_vars, out_vars)`
run on an input sequence of length n, the history of an out-variable has n
rows (shape (n,) + out_var.shape), and the k-th row is that variable's
value after the first k+1 body iterations; on the notebook's summation
example the rows are the constant arrays 1, 3, 6, ..., 55 and each row has
the out-variable's shape (10,). -/
theorem make_loop_history_correct :
    (∀ (σ ι ω ρ : Type) (body : σ → ι → σ × ρ) (outFn : σ → ω) (s : σ) (xs : List ι),
        (make_loop body outFn s xs).2.length = xs.length) ∧
    (∀ (σ ι ω ρ : Type) (body : σ → ι → σ × ρ) (outFn : σ → ω) (s : σ) (xs : List ι)
        (k : Nat), k < xs.length →
        ((make_loop body outFn s xs).2.map Prod.fst)[k]? =
          some (outFn (loop_state body s (xs.take (k + 1))))) ∧
    loop_example_hist = loop_example_expected ∧
    loop_example_hist.length = loop_example_xs.length ∧
    (∀ row ∈ loop_example_hist, row.length = 10) := by
  refine ⟨?_, ?_, by decide, by decide, by decide⟩
  · intro σ ι ω ρ body outFn s xs
    exact make_loop_length body outFn s xs
  · intro σ ι ω ρ body outFn s xs k hk
    exact make_loop_row body outFn s xs k hk

/-- Witness for C3: row 3 of the notebook example's history equals the
out-variable's value after the first four iterations, namely the constant
array of 10s. -/
theorem make_loop_history_correct_witness :
    ((make_loop loop_example_body id (List.replicate 10 (0 : Int)) loop_example_xs).2.map
        Prod.fst)[3]? =
      some (id (loop_state loop_example_body (List.replicate 10 (0 : Int))
        (loop_example_xs.take 4))) :=
  make_loop_history_correct.2.1 _ _ _ _ loop_example_body id
    (List.replicate 10 (0 : Int)) loop_example_xs 3 (by decide)

/-- Claim C5: a while callable built by `make_while(cond_fun, body_fun,
dyn_vars)` executes `body_fun` while `cond_fun()` is true and terminates
exactly when it turns false (any state it returns falsifies the
condition); on the notebook's example, starting from i = [0] and
counter = [0] with condition i[0] < 10 and body i += 1; counter += i, the
loop terminates with i = [10] and counter = [55]. -/
theorem make_while_correct :
    (∀ (σ : Type) (cond : σ → Bool) (body : σ → σ) (n : Nat) (s s2 : σ),
        make_while cond body n s = some s2 → cond s2 = false) ∧
    (∀ (σ : Type) (cond : σ → Bool) (body : σ → σ) (n : Nat) (s : σ),
        cond s = true → make_while cond body (n + 1) s = make_while cond body n (body s)) ∧
    make_while while_cond while_body 11 ([0], [0]) = some ([10], [55]) := by
  refine ⟨?_, ?_, by decide⟩
  · intro σ cond body n s s2 h
    exact make_while_stops_on_false cond body n s s2 h
  · intro σ cond body n s h
    exact make_while_step cond body n s h

/-- Witness for C5: the terminal state of the notebook's while loop indeed
falsifies the loop condition. -/
theorem make_while_correct_witness : while_cond ([10], [55]) = false :=
  make_while_correct.1 _ while_cond while_body 11 ([0], [0]) ([10], [55]) (by decide)

/-- Claim C6: a conditional built by `make_cond(true_fun, false_fun,
dyn_vars)` executes exactly one branch per call: `cond(true)` leaves the
variable touched only by the false branch unchanged, `cond(false)` leaves
the variable touched only by the true branch unchanged, and effects of
repeated calls accumulate: from a = [0,0], b = [1,1], calling cond(true)
twice and then cond(false) twice yields a = [2,2] and b = [-1,-1]. -/
theorem make_cond_frame :
    (∀ s : List Int × List Int, (make_cond cond_true_fun cond_false_fun true s).2 = s.2) ∧
    (∀ s : List Int × List Int, (make_cond cond_true_fun cond_false_fun false s).1 = s.1) ∧
    make_cond cond_true_fun cond_false_fun false
        (make_cond cond_true_fun cond_false_fun false
          (make_cond cond_true_fun cond_false_fun true
            (make_cond cond_true_fun cond_false_fun true ([0, 0], [1, 1])))) =
      ([2, 2], [-1, -1]) := by
  exact ⟨fun s => rfl, fun s => rfl, by decide⟩

/-- Claim C9: the tracked `dyn_vars` are updated in place: after a wrapper
call, the tracked state holds the values assigned by the body/branch
functions (the loop writes back the fold of its body, the notebook's while
loop leaves i = [10], counter = [55], and cond(true) leaves a = [1,1]),
not the original values. -/
theorem dyn_vars_updated_in_place :
    (∀ (σ ι ω ρ : Type) (body : σ → ι → σ × ρ) (outFn : σ → ω) (s : σ) (xs : List ι),
        (make_loop body outFn s xs).1 = loop_state body s xs) ∧
    (∃ s2, make_while while_cond while_body 11 ([0], [0]) = some s2 ∧
      s2.1 = [10] ∧ s2.2 = [55] ∧ s2 ≠ (([0], [0]) : List Int × List Int)) ∧
    ((make_cond cond_true_fun cond_false_fun true ([0, 0], [1, 1])).1 = [1, 1] ∧
      ([1, 1] : List Int) ≠ [0, 0]) := by
  refine ⟨?_, ⟨([10], [55]), by decide, by decide, by decide, by decide⟩, by decide, by decide⟩
  · intro σ ι ω ρ body outFn s xs
    exact make_loop_fst body outFn s xs

/-! ### Container structures (pytrees)

`dyn_vars`, `out_vars`, `xs` and body returns may be lists, tuples or
dicts of arrays.  The wrappers flatten such containers to a flat list of
leaves before the external call and unflatten the results afterwards.  A
container is modelled as a tree whose inner nodes carry the container kind
and, for dict entries, the key. -/

/-- The kind of a container node: a Python list, tuple or dict. -/
inductive NodeKind : Type
  | listKind
  | tupleKind
  | dictKind
deriving DecidableEq

mutual
/-- A container of leaves of type α: a single leaf, or a list/tuple/dict
node over child containers. -/
inductive PyTree (α : Type) : Type
  | leaf : α → PyTree α
  | node : NodeKind → PyChildren α → PyTree α
/-- The children of a container node, each with its dict key (the key is
the empty string for list/tuple entries). -/
inductive PyChildren (α : Type) : Type
  | nil : PyChildren α
  | cons : String → PyTree α → PyChildren α → PyChildren α
end

mutual
/-- Flatten a container to its list of leaves, left to right. -/
def flattenTree {α : Type} : PyTree α → List α
  | .leaf a => [a]
  | .node _ c => flattenChildren c
/-- Flatten a node's children to their list of leaves. -/
def flattenChildren {α : Type} : PyChildren α → List α
  | .nil => []
  | .cons _ t c => flattenTree t ++ flattenChildren c
end

mutual
/-- The container structure (treedef) of a container: the same tree with
the leaf values erased. -/
def treeDef {α : Type} : PyTree α → PyTree Unit
  | .leaf _ => .leaf ()
  | .node k c => .node k (childrenDef c)
/-- The container structure of a node's children. -/
def childrenDef {α : Type} : PyChildren α → PyChildren Unit
  | .nil => .nil
  | .cons key t c => .cons key (treeDef t) (childrenDef c)
end

mutual
/-- Rebuild a container of the given structure from a flat list of leaves,
returning the rebuilt container and the unconsumed leaves (none if the
list has too few leaves). -/
def unflattenTree {α : Type} : PyTree Unit → List α → Option (PyTree α × List α)
  | .leaf _, [] => none
  | .leaf _, a :: rest => some (.leaf a, rest)
  | .node k c, l =>
    match unflattenChildren c l with
    | none => none
    | some (c2, rest) => some (.node k c2, rest)
/-- Rebuild a node's children of the given structure from a flat list. -/
def unflattenChildren {α : Type} : PyChildren Unit → List α → Option (PyChildren α × List α)
  | .nil, l => some (.nil, l)
  | .cons key t c, l =>
    match unflattenTree t l with
    | none => none
    | some (t2, rest) =>
      match unflattenChildren c rest with
      | none => none
      | some (c2, rest2) => some (.cons key t2 c2, rest2)
end

mutual
theorem unflatten_flatten_tree {α : Type} :
    ∀ (t : PyTree α) (r : List α),
      unflattenTree (treeDef t) (flattenTree t ++ r) = some (t, r)
  | .leaf a, r => by simp [treeDef, flattenTree, unflattenTree]
  | .node k c, r => by
    have ih := unflatten_flatten_children c r
    simp [treeDef, flattenTree, unflattenTree, ih]
theorem unflatten_flatten_children {α : Type} :
    ∀ (c : PyChildren α) (r : List α),
      unflattenChildren (childrenDef c) (flattenChildren c ++ r) = some (c, r)
  | .nil, r => by simp [childrenDef, flattenChildren, unflattenChildren]
  | .cons key t c, r => by
    have ih1 := unflatten_flatten_tree t (flattenChildren c ++ r)
    have ih2 := unflatten_flatten_children c r
    simp [childrenDef, flattenChildren, unflattenChildren, List.append_assoc, ih1, ih2]
end

mutual
theorem flattenTree_treeDef_length {α : Type} :
    ∀ t : PyTree α, (flattenTree (treeDef t)).length = (flattenTree t).length
  | .leaf _ => rfl
  | .node _ c => by
    have ih := flattenChildren_childrenDef_length c
    simpa [treeDef, flattenTree] using ih
theorem flattenChildren_childrenDef_length {α : Type} :
    ∀ c : PyChildren α, (flattenChildren (childrenDef c)).length = (flattenChildren c).length
  | .nil => rfl
  | .cons _ t c => by
    have ih1 := flattenTree_treeDef_length t
    have ih2 := flattenChildren_childrenDef_length c
    simp [childrenDef, flattenChildren, ih1, ih2]
end

mutual
theorem unflatten_of_length_tree {α : Type} :
    ∀ (t : PyTree Unit) (l : List α), (flattenTree t).length ≤ l.length →
      ∃ u rest, unflattenTree t l = some (u, rest) ∧ treeDef u = t ∧
        flattenTree u ++ rest = l ∧ (flattenTree u).length = (flattenTree t).length
  | .leaf _, l, h => by
    match l with
    | [] => simp [flattenTree] at h
    | a :: rest => exact ⟨.leaf a, rest, rfl, rfl, rfl, rfl⟩
  | .node k c, l, h => by
    obtain ⟨c2, rest, hu, hd, hf, hl⟩ :=
      unflatten_of_length_children c l (by simpa [flattenTree] using h)
    exact ⟨.node k c2, rest, by simp [unflattenTree, hu], by simp [treeDef, hd],
      by simpa [flattenTree] using hf, by simpa [flattenTree] using hl⟩
theorem unflatten_of_length_children {α : Type} :
    ∀ (c : PyChildren Unit) (l : List α), (flattenChildren c).length ≤ l.length →
      ∃ u rest, unflattenChildren c l = some (u, rest) ∧ childrenDef u = c ∧
        flattenChildren u ++ rest = l ∧ (flattenChildren u).length = (flattenChildren c).length
  | .nil, l, _ => ⟨.nil, l, rfl, rfl, rfl, rfl⟩
  | .cons key t c, l, h => by
    have h1 : (flattenTree t).length ≤ l.length := by
      simp only [flattenChildren, List.length_append] at h
      omega
    obtain ⟨u, rest, hu, hd, hf, hl⟩ := unflatten_of_length_tree t l h1
    have h2 : (flattenChildren c).length ≤ rest.length := by
      have := congrArg List.length hf
      simp only [flattenChildren, List.length_append] at h this
      omega
    obtain ⟨c2, rest2, hu2, hd2, hf2, hl2⟩ := unflatten_of_length_children c rest h2
    refine ⟨.cons key u c2, rest2, by simp [unflattenChildren, hu, hu2],
      by simp [childrenDef, hd, hd2], ?_, ?_⟩
    · rw [flattenChildren, List.append_assoc, hf2, hf]
    · simp [flattenChildren, hl, hl2]
end

/-- Unflattening a flat list with exactly as many leaves as the structure
expects rebuilds a container of that structure and consumes the whole
list. -/
theorem unflatten_exact {α : Type} (t : PyTree Unit) (l : List α)
    (h : l.length = (flattenTree t).length) :
    ∃ u, unflattenTree t l = some (u, []) ∧ treeDef u = t ∧ flattenTree u = l := by
  obtain ⟨u, rest, hu, hd, hf, hl⟩ := unflatten_of_length_tree t l (le_of_eq h.symm)
  have hr : rest = [] := by
    have := congrArg List.length hf
    simp only [List.length_append] at this
    have : rest.length = 0 := by omega
    exact List.length_eq_zero.mp this
  subst hr
  exact ⟨u, hu, hd, by simpa using hf⟩

/-- Modelled from the spec: unflatten every history row emitted by the
external scan back into the container structure of `out_vars`; fails if a
row does not match the structure exactly. -/
def unflattenRows {α : Type} (d : PyTree Unit) : List (List α) → Option (List (PyTree α))
  | [] => some []
  | row :: rows =>
    match unflattenTree d row with
    | some (t, []) =>
      match unflattenRows d rows with
      | some ts => some (t :: ts)
      | none => none
    | _ => none

theorem unflattenRows_exact {α : Type} (d : PyTree Unit) :
    ∀ rows : List (List α), (∀ row ∈ rows, row.length = (flattenTree d).length) →
      ∃ ts, unflattenRows d rows = some ts ∧ ts.map flattenTree = rows ∧
        ∀ u ∈ ts, treeDef u = d := by
  intro rows
  induction rows with
  | nil => exact fun _ => ⟨[], rfl, rfl, by simp⟩
  | cons row rows ih =>
    intro h
    obtain ⟨u, hu, hd, hf⟩ := unflatten_exact d row (h row (by simp))
    obtain ⟨ts, hts, hmap, hdefs⟩ := ih (fun r hr => h r (by simp [hr]))
    refine ⟨u :: ts, ?_, by simp [hmap, hf], ?_⟩
    · rw [unflattenRows, hu, hts]
    · intro v hv
      rcases List.mem_cons.mp hv with h1 | h1
      · exact h1 ▸ hd
      · exact hdefs v h1

/-- The external scan propagates a carry invariant and an emitted-value
invariant established by each step. -/
theorem lax_scan_invariant {σ ι ρ : Type} (f : σ → ι → σ × ρ) (P : σ → Prop) (Q : ρ → Prop)
    (hstep : ∀ s x, P s → P (f s x).1 ∧ Q (f s x).2) :
    ∀ (xs : List ι) (s : σ), P s →
      P (lax_scan f s xs).1 ∧ ∀ r ∈ (lax_scan f s xs).2, Q r := by
  intro xs
  induction xs with
  | nil => exact fun s hs => ⟨hs, by simp [lax_scan]⟩
  | cons x xs ih =>
    intro s hs
    obtain ⟨h1, h2⟩ := hstep s x hs
    obtain ⟨h3, h4⟩ := ih (f s x).1 h1
    rw [lax_scan_cons]
    refine ⟨h3, ?_⟩
    intro r hr
    rcases List.mem_cons.mp hr with h | h
    · exact h ▸ h2
    · exact h4 r h

/-! ### The tree-level wrappers

The wrappers operate on container-structured tracked state: they flatten
the containers, invoke the external structured-control-flow primitive on
the flat lists, and unflatten the results.  In the wrapped call the traced
body works on the flat representation (that is what the external compiler
sees), given here as `fb`; `outSel` reads the flat `out_vars` values out of
the flat carry. -/

/-- Modelled from the spec: the for-loop wrapper over container-structured
state: flatten `dyn_vars`, run the external scan with the flat body
emitting the flat `out_vars` row per step, then unflatten the final carry
with the `dyn_vars` structure and every history row with the `out_vars`
structure. -/
def make_loop_tree {α ι : Type} (fb : List α → ι → List α) (outSel : List α → List α)
    (dyn : PyTree α) (outDef : PyTree Unit) (xs : List ι) :
    Option (PyTree α × List (PyTree α)) :=
  let res := lax_scan (fun c x => let c2 := fb c x; (c2, outSel c2)) (flattenTree dyn) xs
  match unflattenTree (treeDef dyn) res.1 with
  | some (dyn2, []) =>
    match unflattenRows outDef res.2 with
    | some hist => some (dyn2, hist)
    | none => none
  | _ => none

/-- The direct call of the external compiler's scan primitive on the
flattened arguments, as the spec describes the wrapper's contract. -/
def direct_external_loop {α ι : Type} (fb : List α → ι → List α) (outSel : List α → List α)
    (flat : List α) (xs : List ι) : List α × List (List α) :=
  lax_scan (fun c x => let c2 := fb c x; (c2, outSel c2)) flat xs

/-- Modelled from the spec: the while wrapper over container-structured
state: flatten `dyn_vars`, run the external while primitive on the flat
state, unflatten the final flat state with the `dyn_vars` structure. -/
def make_while_tree {α : Type} (cond : List α → Bool) (fb : List α → List α)
    (dyn : PyTree α) (fuel : Nat) : Option (PyTree α) :=
  match make_while cond fb fuel (flattenTree dyn) with
  | none => none
  | some flat2 =>
    match unflattenTree (treeDef dyn) flat2 with
    | some (t, []) => some t
    | _ => none

/-- Modelled from the spec: the conditional wrapper over
container-structured state: flatten `dyn_vars`, run the external branch
primitive on the flat state, unflatten the chosen branch's result. -/
def make_cond_tree {α : Type} (tf ff : List α → List α) (pred : Bool)
    (dyn : PyTree α) : Option (PyTree α) :=
  match unflattenTree (treeDef dyn) (make_cond tf ff pred (flattenTree dyn)) with
  | some (t, []) => some t
  | _ => none

/-- A while loop whose body preserves the flat state's length returns a
state of the same length. -/
theorem make_while_length {α : Type} (cond : List α → Bool) (fb : List α → List α)
    (hlen : ∀ c, (fb c).length = c.length) :
    ∀ (fuel : Nat) (s s2 : List α), make_while cond fb fuel s = some s2 →
      s2.length = s.length := by
  intro fuel
  induction fuel with
  | zero =>
    intro s s2 h
    by_cases hc : cond s = true
    · simp [make_while, hc] at h
    · simp only [Bool.not_eq_true] at hc
      simp [make_while, hc] at h
      simp [h.symm]
  | succ n ih =>
    intro s s2 h
    by_cases hc : cond s = true
    · rw [make_while, if_pos hc] at h
      rw [ih (fb s) s2 h, hlen s]
    · simp only [Bool.not_eq_true] at hc
      rw [make_while, if_neg (by simp [hc])] at h
      cases h
      rfl

/-- The for-loop wrapper is the external scan on flattened arguments,
dressed with flattening and unflattening: it succeeds, preserves the
container structures, and its flattened outputs are exactly the direct
external call's outputs. -/
theorem make_loop_tree_spec {α ι : Type} (fb : List α → ι → List α)
    (outSel : List α → List α) (dyn : PyTree α) (outDef : PyTree Unit) (xs : List ι)
    (hlen : ∀ c x, c.length = (flattenTree dyn).length →
      (fb c x).length = (flattenTree dyn).length)
    (hout : ∀ c, c.length = (flattenTree dyn).length →
      (outSel c).length = (flattenTree outDef).length) :
    ∃ dyn2 hist,
      make_loop_tree fb outSel dyn outDef xs = some (dyn2, hist) ∧
      treeDef dyn2 = treeDef dyn ∧
      (∀ u ∈ hist, treeDef u = outDef) ∧
      flattenTree dyn2 = (direct_external_loop fb outSel (flattenTree dyn) xs).1 ∧
      hist.map flattenTree = (direct_external_loop fb outSel (flattenTree dyn) xs).2 := by
  have hinv := lax_scan_invariant (fun c x => let c2 := fb c x; (c2, outSel c2))
    (fun c => c.length = (flattenTree dyn).length)
    (fun r => r.length = (flattenTree outDef).length)
    (fun c x hc => ⟨hlen c x hc, hout (fb c x) (hlen c x hc)⟩) xs (flattenTree dyn) rfl
  obtain ⟨hcarry, hrows⟩ := hinv
  obtain ⟨dyn2, hu, hd, hf⟩ := unflatten_exact (treeDef dyn)
    (lax_scan (fun c x => let c2 := fb c x; (c2, outSel c2)) (flattenTree dyn) xs).1
    (by rw [hcarry, flattenTree_treeDef_length])
  obtain ⟨hist, hr, hmap, hdefs⟩ := unflattenRows_exact outDef
    (lax_scan (fun c x => let c2 := fb c x; (c2, outSel c2)) (flattenTree dyn) xs).2 hrows
  refine ⟨dyn2, hist, ?_, hd, hdefs, ?_, ?_⟩
  · rw [make_loop_tree]
    rw [hu, hr]
  · exact hf
  · exact hmap

/-- The while wrapper is the external while primitive on the flattened
state, dressed with flattening and unflattening. -/
theorem make_while_tree_spec {α : Type} (cond : List α → Bool) (fb : List α → List α)
    (dyn : PyTree α) (fuel : Nat) (hlen : ∀ c, (fb c).length = c.length) :
    (make_while_tree cond fb dyn fuel = none ↔
      make_while cond fb fuel (flattenTree dyn) = none) ∧
    (∀ flat2, make_while cond fb fuel (flattenTree dyn) = some flat2 →
      ∃ t, make_while_tree cond fb dyn fuel = some t ∧
        flattenTree t = flat2 ∧ treeDef t = treeDef dyn) := by
  constructor
  · constructor
    · intro h
      by_contra hne
      obtain ⟨flat2, hf2⟩ := Option.ne_none_iff_exists'.mp hne
      have hl : flat2.length = (flattenTree (treeDef dyn)).length := by
        rw [flattenTree_treeDef_length]
        exact make_while_length cond fb hlen fuel (flattenTree dyn) flat2 hf2
      obtain ⟨t, ht, _, _⟩ := unflatten_exact (treeDef dyn) flat2 hl
      rw [make_while_tree, hf2] at h
      simp [ht] at h
    · intro h
      rw [make_while_tree, h]
  · intro flat2 hf2
    have hl : flat2.length = (flattenTree (treeDef dyn)).length := by
      rw [flattenTree_treeDef_length]
      exact make_while_length cond fb hlen fuel (flattenTree dyn) flat2 hf2
    obtain ⟨t, ht, hd, hf⟩ := unflatten_exact (treeDef dyn) flat2 hl
    refine ⟨t, ?_, hf, hd⟩
    rw [make_while_tree, hf2]
    simp [ht]

/-- The conditional wrapper is the external branch primitive on the
flattened state, dressed with flattening and unflattening. -/
theorem make_cond_tree_spec {α : Type} (tf ff : List α → List α) (pred : Bool)
    (dyn : PyTree α) (htf : ∀ c, (tf c).length = c.length)
    (hff : ∀ c, (ff c).length = c.length) :
    ∃ t, make_cond_tree tf ff pred dyn = some t ∧
      flattenTree t = make_cond tf ff pred (flattenTree dyn) ∧
      treeDef t = treeDef dyn := by
  have hl : (make_cond tf ff pred (flattenTree dyn)).length =
      (flattenTree (treeDef dyn)).length := by
    rw [flattenTree_treeDef_length]
    cases pred <;> simp [make_cond, htf, hff]
  obtain ⟨t, ht, hd, hf⟩ := unflatten_exact (treeDef dyn) _ hl
  refine ⟨t, ?_, hf, hd⟩
  rw [make_cond_tree, ht]

/-- A concrete container-structured tracked state: a dict of two arrays,
as in the notebook's dict example. -/
def example_dyn : PyTree Int :=
  .node .dictKind (.cons "a" (.leaf 3) (.cons "b" (.leaf 5) .nil))

/-- A concrete flat body for the loop wrapper: add 1 to every leaf. -/
def example_fb (c : List Int) (_ : Unit) : List Int :=
  c.map (fun v => v + 1)

/-- Claim C2: the wrappers flatten the container arguments before the
external call and unflatten the results afterwards, a round trip on
container structure: unflattening the flattened leaves with a container's
treedef rebuilds exactly that container, and consequently the loop
wrapper's history rows carry the container structure of `out_vars` and its
final state the structure of `dyn_vars`. -/
theorem container_structure_round_trip :
    (∀ (α : Type) (t : PyTree α) (r : List α),
        unflattenTree (treeDef t) (flattenTree t ++ r) = some (t, r)) ∧
    (∀ (α ι : Type) (fb : List α → ι → List α) (outSel : List α → List α)
        (dyn : PyTree α) (outDef : PyTree Unit) (xs : List ι),
      (∀ c x, c.length = (flattenTree dyn).length →
        (fb c x).length = (flattenTree dyn).length) →
      (∀ c, c.length = (flattenTree dyn).length →
        (outSel c).length = (flattenTree outDef).length) →
      ∃ dyn2 hist, make_loop_tree fb outSel dyn outDef xs = some (dyn2, hist) ∧
        treeDef dyn2 = treeDef dyn ∧ ∀ u ∈ hist, treeDef u = outDef) := by
  refine ⟨?_, ?_⟩
  · intro α t r
    exact unflatten_flatten_tree t r
  · intro α ι fb outSel dyn outDef xs hlen hout
    obtain ⟨dyn2, hist, h1, h2, h3, _, _⟩ := make_loop_tree_spec fb outSel dyn outDef xs hlen hout
    exact ⟨dyn2, hist, h1, h2, h3⟩

/-- Witness for C2 at the concrete dict container: two loop steps over
`example_dyn` succeed and preserve the dict structure. -/
theorem container_structure_round_trip_witness :
    ∃ dyn2 hist, make_loop_tree example_fb id example_dyn (treeDef example_dyn) [(), ()] =
        some (dyn2, hist) ∧
      treeDef dyn2 = treeDef example_dyn ∧
      ∀ u ∈ hist, treeDef u = treeDef example_dyn :=
  container_structure_round_trip.2 Int Unit example_fb id example_dyn
    (treeDef example_dyn) [(), ()]
    (by intro c x h; simpa [example_fb] using h)
    (by intro c h; simpa [flattenTree_treeDef_length] using h)

/-- Claim C4: each wrapper is observationally equivalent to the direct
call of the external compiler's structured-control-flow primitive on the
flattened arguments: beyond flattening and unflattening it adds no
behavior — flattening the loop wrapper's outputs yields exactly the direct
external scan's outputs, the while wrapper returns (up to unflattening)
exactly what the external while primitive returns and fails exactly when
it fails, and the conditional wrapper returns exactly the external branch
primitive's result. -/
theorem wrappers_equal_external_call :
    (∀ (α ι : Type) (fb : List α → ι → List α) (outSel : List α → List α)
        (dyn : PyTree α) (outDef : PyTree Unit) (xs : List ι),
      (∀ c x, c.length = (flattenTree dyn).length →
        (fb c x).length = (flattenTree dyn).length) →
      (∀ c, c.length = (flattenTree dyn).length →
        (outSel c).length = (flattenTree outDef).length) →
      ∃ dyn2 hist, make_loop_tree fb outSel dyn outDef xs = some (dyn2, hist) ∧
        flattenTree dyn2 = (direct_external_loop fb outSel (flattenTree dyn) xs).1 ∧
        hist.map flattenTree = (direct_external_loop fb outSel (flattenTree dyn) xs).2) ∧
    (∀ (α : Type) (cond : List α → Bool) (fb : List α → List α) (dyn : PyTree α)
        (fuel : Nat), (∀ c, (fb c).length = c.length) →
      (make_while_tree cond fb dyn fuel = none ↔
        make_while cond fb fuel (flattenTree dyn) = none) ∧
      (∀ flat2, make_while cond fb fuel (flattenTree dyn) = some flat2 →
        ∃ t, make_while_tree cond fb dyn fuel = some t ∧ flattenTree t = flat2)) ∧
    (∀ (α : Type) (tf ff : List α → List α) (pred : Bool) (dyn : PyTree α),
      (∀ c, (tf c).length = c.length) → (∀ c, (ff c).length = c.length) →
      ∃ t, make_cond_tree tf ff pred dyn = some t ∧
        flattenTree t = make_cond tf ff pred (flattenTree dyn)) := by
  refine ⟨?_, ?_, ?_⟩
  · intro α ι fb outSel dyn outDef xs hlen hout
    obtain ⟨dyn2, hist, h1, _, _, h4, h5⟩ := make_loop_tree_spec fb outSel dyn outDef xs hlen hout
    exact ⟨dyn2, hist, h1, h4, h5⟩
  · intro α cond fb dyn fuel hlen
    obtain ⟨h1, h2⟩ := make_while_tree_spec cond fb dyn fuel hlen
    exact ⟨h1, fun flat2 hf => by
      obtain ⟨t, ht, hflat, _⟩ := h2 flat2 hf
      exact ⟨t, ht, hflat⟩⟩
  · intro α tf ff pred dyn htf hff
    obtain ⟨t, ht, hflat, _⟩ := make_cond_tree_spec tf ff pred dyn htf hff
    exact ⟨t, ht, hflat⟩

/-- Witness for C4 at the concrete dict container: the loop wrapper's
flattened outputs equal the direct external scan's outputs on the
flattened dict. -/
theorem wrappers_equal_external_call_witness :
    ∃ dyn2 hist, make_loop_tree example_fb id example_dyn (treeDef example_dyn) [(), ()] =
        some (dyn2, hist) ∧
      flattenTree dyn2 =
        (direct_external_loop example_fb id (flattenTree example_dyn) [(), ()]).1 ∧
      hist.map flattenTree =
        (direct_external_loop example_fb id (flattenTree example_dyn) [(), ()]).2 :=
  wrappers_equal_external_call.1 Int Unit example_fb id example_dyn
    (treeDef example_dyn) [(), ()]
    (by intro c x h; simpa [example_fb] using h)
    (by intro c h; simpa [flattenTree_treeDef_length] using h)

/-! ### Error propagation -/

/-- Modelled from the spec: the error taxonomy produced by the external
compiler (shape mismatches, unregistered kernels, type errors); the
wrappers define no error type of their own. -/
inductive ExternalError : Type
  | shapeMismatch : String → ExternalError
  | unregisteredKernel : String → ExternalError
  | typeError : String → ExternalError
deriving DecidableEq

/-- Modelled from the spec: a wrapper call around a fallible external
call: flatten the container argument, forward it to the external call, and
unflatten on success; any error is the external compiler's error,
propagated unchanged. -/
def wrap_external {α : Type} (ext : List α → Except ExternalError (List α))
    (t : PyTree α) : Except ExternalError (Option (PyTree α × List α)) :=
  match ext (flattenTree t) with
  | .error e => .error e
  | .ok l => .ok (unflattenTree (treeDef t) l)

/-- A concrete external call that succeeds and returns its argument. -/
def example_ok_ext (l : List Int) : Except ExternalError (List Int) := .ok l

/-- Claim C8: a wrapper call raises exactly when the external call on the
flattened arguments raises, with the same external error propagated
unchanged, and on external success the wrapper only unflattens the
external result: the wrappers introduce no error behavior of their own. -/
theorem errors_propagated_unchanged :
    (∀ (α : Type) (ext : List α → Except ExternalError (List α)) (t : PyTree α)
        (e : ExternalError),
      wrap_external ext t = .error e ↔ ext (flattenTree t) = .error e) ∧
    (∀ (α : Type) (ext : List α → Except ExternalError (List α)) (t : PyTree α)
        (l : List α),
      ext (flattenTree t) = .ok l →
      wrap_external ext t = .ok (unflattenTree (treeDef t) l)) := by
  constructor
  · intro α ext t e
    constructor
    · intro h
      rw [wrap_external] at h
      rcases hx : ext (flattenTree t) with e2 | l
      · rw [hx] at h
        cases h
        rfl
      · rw [hx] at h
        cases h
    · intro h
      rw [wrap_external, h]
  · intro α ext t l h
    rw [wrap_external, h]

/-- Witness for C8: with the succeeding external call, the wrapper returns
the unflattened external result on a concrete leaf container. -/
theorem errors_propagated_unchanged_witness :
    wrap_external example_ok_ext (.leaf 0) =
      .ok (unflattenTree (treeDef (.leaf (0 : Int))) (flattenTree (.leaf (0 : Int)))) :=
  errors_propagated_unchanged.2 Int example_ok_ext (.leaf 0)
    (flattenTree (.leaf (0 : Int))) rfl

/-! ### Custom operator registration (XLACustomOp)

The `operator_custom_with_cupy` notebook registers externally-authored GPU
kernels via `bm.XLACustomOp(gpu_kernel=kernel)` and calls the registered
operator with declared `outs=[jax.ShapeDtypeStruct(shape, dtype), ...]`
and tuple `grid`/`block` launch parameters. -/

/-- Array element types appearing in the notebook. -/
inductive DType : Type
  | float32
  | int32
deriving DecidableEq

/-- Modelled from the spec: `jax.ShapeDtypeStruct` — a declared output
shape and dtype. -/
structure ShapeDtypeStruct : Type where
  shape : List Nat
  dtype : DType
deriving DecidableEq

/-- A device array: shape, dtype and flat data.  Elements are exact
integers, as in the notebook's examples. -/
structure NDArray : Type where
  shape : List Nat
  dtype : DType
  data : List Int
deriving DecidableEq

/-- Modelled from the spec: an externally-authored GPU kernel (a CuPy
RawModule kernel or `jit.rawkernel`): given the launch grid and block, the
inputs, an output index and a flat position in that output's buffer, it
determines the value written there. -/
structure GpuKernel : Type where
  write : List Nat → List Nat → List NDArray → Nat → Nat → Int

/-- Modelled from the spec: the external compiler's operator dispatch
table. -/
structure DispatchTable : Type where
  ops : List GpuKernel

/-- Modelled from the spec: `XLACustomOp(gpu_kernel=kernel)` installs the
kernel in the dispatch table and yields the registered operator's index. -/
def XLACustomOp (table : DispatchTable) (gpu_kernel : GpuKernel) :
    DispatchTable × Nat :=
  (⟨table.ops ++ [gpu_kernel]⟩, table.ops.length)

/-- Modelled from the spec: allocate the declared output buffers, one per
`ShapeDtypeStruct` in declared order, each filled by the external kernel
launched at the given grid and block. -/
def allocOutputs (k : GpuKernel) (grid block : List Nat) (ins : List NDArray) :
    Nat → List ShapeDtypeStruct → List NDArray
  | _, [] => []
  | j, sd :: rest =>
    ⟨sd.shape, sd.dtype, (List.range sd.shape.prod).map (k.write grid block ins j)⟩ ::
      allocOutputs k grid block ins (j + 1) rest

/-- Modelled from the spec: calling a registered custom operator with
`grid`, `block` and declared `outs`: the wrapper launches the external
kernel with grid and block unchanged and returns the filled output
buffers in declared order. -/
def callCustomOp (k : GpuKernel) (ins : List NDArray) (grid block : List Nat)
    (outs : List ShapeDtypeStruct) : List NDArray :=
  allocOutputs k grid block ins 0 outs

theorem allocOutputs_length (k : GpuKernel) (grid block : List Nat) (ins : List NDArray) :
    ∀ (outs : List ShapeDtypeStruct) (j : Nat),
      (allocOutputs k grid block ins j outs).length = outs.length := by
  intro outs
  induction outs with
  | nil => intro j; rfl
  | cons sd rest ih =>
    intro j
    simp [allocOutputs, ih (j + 1)]

theorem allocOutputs_get (k : GpuKernel) (grid block : List Nat) (ins : List NDArray) :
    ∀ (outs : List ShapeDtypeStruct) (j i : Nat) (sd : ShapeDtypeStruct),
      outs[i]? = some sd →
      (allocOutputs k grid block ins j outs)[i]? =
        some ⟨sd.shape, sd.dtype,
          (List.range sd.shape.prod).map (k.write grid block ins (j + i))⟩ := by
  intro outs
  induction outs with
  | nil => intro j i sd h; simp at h
  | cons s0 rest ih =>
    intro j i sd h
    rcases i with _ | i
    · simp at h
      simp [allocOutputs, h]
    · simp only [List.getElem?_cons_succ] at h
      have := ih (j + 1) i sd h
      simpa [allocOutputs, Nat.add_assoc, Nat.add_comm 1 i] using this

theorem allocOutputs_congr (k k2 : GpuKernel) (grid block : List Nat) (ins : List NDArray)
    (h : ∀ ins2 j pos, k.write grid block ins2 j pos = k2.write grid block ins2 j pos) :
    ∀ (outs : List ShapeDtypeStruct) (j : Nat),
      allocOutputs k grid block ins j outs = allocOutputs k2 grid block ins j outs := by
  intro outs
  induction outs with
  | nil => intro j; rfl
  | cons sd rest ih =>
    intro j
    simp [allocOutputs, ih (j + 1), h ins j]

/-- The notebook's RawModule addition kernel on two all-ones 10x10 inputs:
every output element is 1 + 1 = 2 (position-independent here). -/
def example_kernel : GpuKernel :=
  ⟨fun _ _ _ _ _ => 2⟩

/-- The notebook's input `x1 = bm.ones((N, N))` with N = 10. -/
def example_x : NDArray :=
  ⟨[10, 10], .float32, List.replicate 100 1⟩

/-- The notebook's declared output list
`outs=[jax.ShapeDtypeStruct((N, N), dtype=bm.float32)]` with N = 10. -/
def example_outs : List ShapeDtypeStruct :=
  [⟨[10, 10], .float32⟩]

/-- Claim C7: `XLACustomOp(gpu_kernel=kernel)` installs the kernel in the
compiler's dispatch table at the returned operator index, and calling the
registered operator with declared `outs` returns one output array per
declared `ShapeDtypeStruct`, in declared order, whose shape and dtype
match the declaration (with the data buffer sized by the declared
shape). -/
theorem custom_op_registration_and_outputs :
    (∀ (table : DispatchTable) (k : GpuKernel),
      ((XLACustomOp table k).1.ops)[(XLACustomOp table k).2]? = some k) ∧
    (∀ (k : GpuKernel) (ins : List NDArray) (grid block : List Nat)
        (outs : List ShapeDtypeStruct),
      (callCustomOp k ins grid block outs).length = outs.length) ∧
    (∀ (k : GpuKernel) (ins : List NDArray) (grid block : List Nat)
        (outs : List ShapeDtypeStruct) (i : Nat) (sd : ShapeDtypeStruct),
      outs[i]? = some sd →
      ∃ arr, (callCustomOp k ins grid block outs)[i]? = some arr ∧
        arr.shape = sd.shape ∧ arr.dtype = sd.dtype ∧
        arr.data.length = sd.shape.prod) := by
  refine ⟨?_, ?_, ?_⟩
  · intro table k
    simp [XLACustomOp]
  · intro k ins grid block outs
    exact allocOutputs_length k grid block ins outs 0
  · intro k ins grid block outs i sd h
    exact ⟨_, allocOutputs_get k grid block ins outs 0 i sd h, rfl, rfl, by simp⟩

/-- Witness for C7 at the notebook's example: the single declared
(10, 10) float32 output comes back with that shape, dtype and buffer
size. -/
theorem custom_op_registration_and_outputs_witness :
    ∃ arr, (callCustomOp example_kernel [example_x, example_x] [10] [10]
        example_outs)[0]? = some arr ∧
      arr.shape = ([10, 10] : List Nat) ∧ arr.dtype = DType.float32 ∧
      arr.data.length = ([10, 10] : List Nat).prod :=
  custom_op_registration_and_outputs.2.2 example_kernel [example_x, example_x]
    [10] [10] example_outs 0 ⟨[10, 10], .float32⟩ rfl

/-- Claim C10: the wrapper forwards the `grid` and `block` tuples
unchanged to the external kernel launch — every output value is computed
by the external kernel invoked at exactly the given grid and block — and
it performs no independent scheduling: the call's outcome depends on grid
and block only through the external kernel, so two kernels that agree at
this grid and block produce identical call results. -/
theorem grid_block_forwarded_unchanged :
    (∀ (k : GpuKernel) (ins : List NDArray) (grid block : List Nat)
        (outs : List ShapeDtypeStruct) (i : Nat) (sd : ShapeDtypeStruct),
      outs[i]? = some sd →
      (callCustomOp k ins grid block outs)[i]? =
        some ⟨sd.shape, sd.dtype,
          (List.range sd.shape.prod).map (k.write grid block ins i)⟩) ∧
    (∀ (k k2 : GpuKernel) (ins : List NDArray) (grid block : List Nat)
        (outs : List ShapeDtypeStruct),
      (∀ ins2 j pos, k.write grid block ins2 j pos = k2.write grid block ins2 j pos) →
      callCustomOp k ins grid block outs = callCustomOp k2 ins grid block outs) := by
  constructor
  · intro k ins grid block outs i sd h
    simpa using allocOutputs_get k grid block ins outs 0 i sd h
  · intro k k2 ins grid block outs h
    exact allocOutputs_congr k k2 grid block ins h outs 0

/-- Witness for C10 at the notebook's example: the output buffer of the
example call is exactly the external kernel's writes at grid (10,) and
block (10,). -/
theorem grid_block_forwarded_unchanged_witness :
    (callCustomOp example_kernel [example_x, example_x] [10] [10] example_outs)[0]? =
      some ⟨[10, 10], DType.float32,
        (List.range ([10, 10] : List Nat).prod).map
          (example_kernel.write [10] [10] [example_x, example_x] 0)⟩ :=
  grid_block_forwarded_unchanged.1 example_kernel [example_x, example_x]
    [10] [10] example_outs 0 ⟨[10, 10], .float32⟩ rfl

end BrainPy
